import Mathlib

/-!
Verification of the TREES course/gate editing core (public/assets/js/config.js
plus app/state.js).  The JavaScript model state and the operations the claims
concern are embedded shallowly: JS `Map`s become insertion-ordered association
lists, network calls become explicit oracle functions, and JS truthiness on
strings / numbers is modelled explicitly where the code relies on it.
-/

namespace Trees

/-- Gate type tag: the source stores the strings `'start'` and `'end'` in the
`type` field of a gate. -/
inductive GType where
  | start : GType
  | end_ : GType
deriving DecidableEq

/-- A latitude/longitude coordinate pair, as used for checkpoints and for the
`start`/`end` coordinates in course payloads (`{lat, lon}` objects). -/
structure LatLon where
  lat : Rat
  lon : Rat
deriving DecidableEq

/-- A flat gate as stored in `this.timeGates`
(see app/state.js: `{id, pairId, name, type, lat, lon, confirmed, editing}`). -/
structure Gate where
  id : String
  pairId : Nat
  name : String
  type : GType
  lat : Rat
  lon : Rat
  confirmed : Bool
  editing : Bool
deriving DecidableEq

/-- A derived gate pair as produced by the `gatePairs` computed projection:
`{pairId, name, start, end, checkpoints, confirmed, editing}`; `start`/`end`
are `null` until the corresponding gate is seen. -/
structure GatePair where
  pairId : Nat
  name : String
  start : Option Gate
  end_ : Option Gate
  checkpoints : List LatLon
  confirmed : Bool
  editing : Bool
deriving DecidableEq

/-- JS string truthiness for `s || dflt`: the empty string is falsy. -/
def jsStr (s : String) (dflt : String) : String :=
  if s = "" then dflt else s

/-- JS `o || dflt` where `o` is a possibly-undefined string
(e.g. `pairNames.get(k)`): `undefined` and `""` both fall through. -/
def jsOptStr (o : Option String) (dflt : String) : String :=
  match o with
  | none => dflt
  | some s => jsStr s dflt

/-- JS `Map.get`: the first (unique) binding for the key, if any. -/
def mapGet {α : Type} (m : List (Nat × α)) (k : Nat) : Option α :=
  (m.find? (fun kv => kv.1 = k)).map (fun kv => kv.2)

/-- JS `Map.set`: replaces the binding if the key is present, otherwise appends
(JS `Map` preserves insertion order). -/
def mapSet {α : Type} (m : List (Nat × α)) (k : Nat) (v : α) : List (Nat × α) :=
  if m.any (fun kv => kv.1 = k) then
    m.map (fun kv => if kv.1 = k then (k, v) else kv)
  else
    m ++ [(k, v)]

/-- JS `Map.delete`: removes the binding for the key. -/
def mapDelete {α : Type} (m : List (Nat × α)) (k : Nat) : List (Nat × α) :=
  m.filter (fun kv => kv.1 ≠ k)

/-- The checkpoint mapping `pairCheckpoints` (pairId → checkpoint list). -/
abbrev CpMap := List (Nat × List LatLon)

/-- The custom-name mapping `pairNames` (pairId → custom name). -/
abbrev NameMap := List (Nat × String)

/-- The group object created by `gatePairs` on first sight of a `pairId`:
`{pairId, name: customName || g.name || dflt, start: null, end: null,
checkpoints: cps.get(pairId) || [], confirmed: false, editing: false}`. -/
def newEntry (names : NameMap) (cps : CpMap) (g : Gate) : GatePair :=
  { pairId := g.pairId
    name := jsOptStr (mapGet names g.pairId)
      (jsStr g.name ("Gate Pair " ++ toString g.pairId))
    start := none
    end_ := none
    checkpoints := (mapGet cps g.pairId).getD []
    confirmed := false
    editing := false }

/-- The per-gate update in the `gatePairs` loop: `entry[g.type] = g`, then the
name, `confirmed`, `editing` and `checkpoints` fields are recomputed.
`!!(entry.start?.confirmed && entry.end?.confirmed)` is false whenever either
side is `null`, hence the `Option.map`/`getD false` reading. -/
def updateEntry (names : NameMap) (cps : CpMap) (g : Gate) (e : GatePair) : GatePair :=
  let e :=
    match g.type with
    | GType.start => { e with start := some g }
    | GType.end_ => { e with end_ := some g }
  { e with
    name := jsOptStr (mapGet names g.pairId) (jsStr g.name e.name)
    confirmed := ((e.start.map Gate.confirmed).getD false)
      && ((e.end_.map Gate.confirmed).getD false)
    editing := ((e.start.map Gate.editing).getD false)
      || ((e.end_.map Gate.editing).getD false)
    checkpoints := (mapGet cps g.pairId).getD [] }

/-- One iteration of the `gatePairs` loop: look up (or create and register) the
group for `g.pairId` in the insertion-ordered group list, then update it. -/
def insertGate (names : NameMap) (cps : CpMap) (groups : List GatePair) (g : Gate) :
    List GatePair :=
  if groups.any (fun e => e.pairId = g.pairId) then
    groups.map (fun e => if e.pairId = g.pairId then updateEntry names cps g e else e)
  else
    groups ++ [updateEntry names cps g (newEntry names cps g)]

/-- The group map built by the `gatePairs` loop over `this.timeGates`, in
insertion order (`Array.from(groups.values())`). -/
def gatePairsRaw (gates : List Gate) (names : NameMap) (cps : CpMap) : List GatePair :=
  gates.foldl (insertGate names cps) []

/-- The `gatePairs` computed projection (config.js): group the flat gates by
`pairId`, then keep only complete pairs (`.filter(p => p.start && p.end)`). -/
def gatePairs (gates : List Gate) (names : NameMap) (cps : CpMap) : List GatePair :=
  (gatePairsRaw gates names cps).filter (fun p => p.start.isSome && p.end_.isSome)

/-- A GPS point of a track: `{lat, lon, ele?, time?}`. -/
structure Point where
  lat : Rat
  lon : Rat
  ele : Option Rat
  time : Option String
deriving DecidableEq

/-- A segment-time result element.  The frontend never inspects the elements
returned in `data.segments`; they are opaque wire values. -/
abbrev Segment := String

/-- A loaded track (see app/state.js:
`{id, name, points, color}` plus the `segmentTimes` result field). -/
structure Track where
  id : String
  name : String
  points : List Point
  color : String
  segmentTimes : List Segment
deriving DecidableEq

/-- A point in the `/segment-times` request body:
`{lat, lon, ele: p.ele ?? null, time: p.time ?? null}`. -/
structure SegPoint where
  lat : Rat
  lon : Rat
  ele : Option Rat
  time : Option String
deriving DecidableEq

/-- One gate pair in the wire format built by `gatePairsToApiPayload`. -/
structure ApiGate where
  pairId : Nat
  name : String
  start : LatLon
  end_ : LatLon
  checkpoints : List LatLon
deriving DecidableEq

/-- The `/segment-times` request body: `{points, gates, buffer_m}`. -/
structure SegReq where
  points : List SegPoint
  gates : List ApiGate
  buffer_m : Rat
deriving DecidableEq

/-- One gate pair in a persisted course payload as consumed by
`loadSelectedCourse`: `{pairId, name, start, end, checkpoints?}`; the
checkpoint list is used only when it is an array. -/
structure CourseGate where
  pairId : Nat
  name : String
  start : LatLon
  end_ : LatLon
  checkpoints : Option (List LatLon)
deriving DecidableEq

/-- A fetched course payload (`GET /courses/{id}`), restricted to the fields
the frontend reads: the gate list and the buffer distance. -/
structure Course where
  gates : List CourseGate
  buffer_m : Rat
deriving DecidableEq

/-- The slice of the Vue app state (app/state.js) that the verified operations
read or write.  Rendering-only fields (layer arrays, UI flags) are omitted:
`redrawGates`/`redrawTracks` touch only those. -/
structure AppState where
  timeGates : List Gate
  pairCheckpoints : CpMap
  pairNames : NameMap
  tracks : List Track
  selectedTrackIds : List String
  selectedCourseId : Option Nat
  selectedCourse : Option Course
  isCreatingCourse : Bool
  bufferMeters : Rat
  leaderboard : List String
deriving DecidableEq

/-- Oracle for `apiPost("/segment-times", ...)`: an error models a thrown
fetch error or a non-success response (both raise in `apiPost`); a success
carries `data.segments`, which may be absent (`none`). -/
abbrev SegNet := SegReq → Except String (Option (List Segment))

/-- Oracle for `apiGet("/leaderboard/{id}")`: a success carries
`data.entries`, possibly absent. -/
abbrev LbNet := Nat → Except String (Option (List String))

/-- Oracle for `apiGet("/courses/{id}")`. -/
abbrev CourseNet := Nat → Except String Course

/-- JS numeric truthiness for `n || dflt` on a number: `0` is falsy. -/
def jsNum (n : Rat) (dflt : Rat) : Rat :=
  if n = 0 then dflt else n

/-- JS falsiness of `this.selectedCourseId` (`null | number`): `null` and `0`
are falsy. -/
def idFalsy (o : Option Nat) : Bool :=
  match o with
  | none => true
  | some n => n = 0

/-- The payload builder `gatePairsToApiPayload`: keep complete confirmed pairs
and project them to the wire shape.  After the filter `start`/`end` are
non-null, so the `getD` defaults below are never reached. -/
def gatePairsToApiPayload (s : AppState) : List ApiGate :=
  ((gatePairs s.timeGates s.pairNames s.pairCheckpoints).filter
      (fun p => p.start.isSome && p.end_.isSome && p.confirmed)).map
    (fun p =>
      { pairId := p.pairId
        name := jsStr p.name ("Gate Pair " ++ toString p.pairId)
        start := { lat := ((p.start.map Gate.lat).getD 0), lon := ((p.start.map Gate.lon).getD 0) }
        end_ := { lat := ((p.end_.map Gate.lat).getD 0), lon := ((p.end_.map Gate.lon).getD 0) }
        checkpoints := p.checkpoints.map (fun c => { lat := c.lat, lon := c.lon }) })

/-- The `/segment-times` request body sent for one track. -/
def mkSegReq (t : Track) (gates : List ApiGate) (buffer_m : Rat) : SegReq :=
  { points := t.points.map (fun p => { lat := p.lat, lon := p.lon, ele := p.ele, time := p.time })
    gates := gates
    buffer_m := buffer_m }

/-- Per-track body of the `recalcAllSegmentTimes` loop: a track without points
is cleared without a request; otherwise one request is issued and a failure
clears only this track's `segmentTimes` (`data.segments || []` on success).
Returns the updated track and the request it issued, if any. -/
def recalcTrack (net : SegNet) (gates : List ApiGate) (buffer_m : Rat) (t : Track) :
    Track × Option SegReq :=
  if t.points.isEmpty then
    ({ t with segmentTimes := [] }, none)
  else
    let req := mkSegReq t gates buffer_m
    match net req with
    | Except.ok data => ({ t with segmentTimes := data.getD [] }, some req)
    | Except.error _ => ({ t with segmentTimes := [] }, some req)

/-- `recalcAllSegmentTimes` (config.js): early return with no tracks; with no
confirmed gates, clear all results and stop without network calls; otherwise
process every track independently.  The second component lists the requests
issued, in order. -/
def recalcAllSegmentTimes (net : SegNet) (s : AppState) : AppState × List SegReq :=
  if s.tracks.isEmpty then (s, [])
  else
    let gates := gatePairsToApiPayload s
    if gates.isEmpty then
      ({ s with tracks := s.tracks.map (fun t => { t with segmentTimes := [] }) }, [])
    else
      let buffer_m := jsNum s.bufferMeters 10
      let results := s.tracks.map (recalcTrack net gates buffer_m)
      ({ s with tracks := results.map Prod.fst }, results.filterMap Prod.snd)

/-- `fetchLeaderboard`: clears the board without a selected course, otherwise
stores `data.entries || []`, or clears on failure. -/
def fetchLeaderboard (lbNet : LbNet) (s : AppState) : AppState :=
  if idFalsy s.selectedCourseId then { s with leaderboard := [] }
  else
    match lbNet (s.selectedCourseId.getD 0) with
    | Except.ok data => { s with leaderboard := data.getD [] }
    | Except.error _ => { s with leaderboard := [] }

/-- `startNewCourse`: reset course-related state and enter creation mode. -/
def startNewCourse (s : AppState) : AppState :=
  { s with
    selectedCourseId := none
    selectedCourse := none
    timeGates := []
    pairCheckpoints := []
    pairNames := []
    leaderboard := []
    bufferMeters := 10
    isCreatingCourse := true }

/-- `nextPairId`'s `while` loop: starting at `i`, return the first integer not
in `used`; `fuel` bounds the iteration (the loop terminates because `used` is
finite, and `used.length + 1` steps always suffice). -/
def nextPairIdAux (used : List Nat) : Nat → Nat → Nat
  | 0, i => i
  | fuel + 1, i => if i ∈ used then nextPairIdAux used fuel (i + 1) else i

/-- `nextPairId`: the smallest positive integer not used as a `pairId`. -/
def nextPairId (s : AppState) : Nat :=
  nextPairIdAux (s.timeGates.map Gate.pairId) (s.timeGates.length + 1) 1

/-- `addGatePair`: append a fresh start/end gate pair around the map center,
both unconfirmed and in editing mode.  `center` is `map.getCenter()` and
`now` is `Date.now()` (used only to build the gate ids). -/
def addGatePair (center : Rat × Rat) (now : Nat) (s : AppState) : AppState :=
  let offset : Rat := 1 / 1000
  let np := nextPairId s
  let nm := "Gate Pair " ++ toString np
  let startGate : Gate :=
    { id := toString now ++ "_S", pairId := np, name := nm, type := GType.start
      lat := center.1 + offset, lon := center.2 + offset
      confirmed := false, editing := true }
  let endGate : Gate :=
    { id := toString now ++ "_E", pairId := np, name := nm, type := GType.end_
      lat := center.1 - offset, lon := center.2 - offset
      confirmed := false, editing := true }
  { s with timeGates := s.timeGates ++ [startGate, endGate] }

/-- `startEditing(pairId)`: every gate's `editing` becomes "belongs to the
pair", and unconfirmed gates of other pairs are (re-)marked unconfirmed. -/
def startEditing (p : Nat) (s : AppState) : AppState :=
  { s with
    timeGates := s.timeGates.map (fun g =>
      { g with
        editing := decide (g.pairId = p)
        confirmed := if g.pairId ≠ p ∧ g.confirmed = false then false else g.confirmed }) }

/-- `saveAndConfirmGate(pairId)`: persist the pair's current display name,
mark its gates confirmed and not editing, then recompute segment times and
refresh the leaderboard. -/
def saveAndConfirmGate (segNet : SegNet) (lbNet : LbNet) (p : Nat) (s : AppState) :
    AppState × List SegReq :=
  let pair := (gatePairs s.timeGates s.pairNames s.pairCheckpoints).find?
    (fun q => q.pairId = p)
  let newName := jsOptStr (pair.map GatePair.name) ("Gate Pair " ++ toString p)
  let s := { s with
    pairNames := mapSet s.pairNames p newName
    timeGates := s.timeGates.map (fun g =>
      if g.pairId ≠ p then g
      else { g with name := newName, confirmed := true, editing := false }) }
  let r := recalcAllSegmentTimes segNet s
  (fetchLeaderboard lbNet r.1, r.2)

/-- `removeGatePair(pairId)`: drop the pair's gates, checkpoints and custom
name, then recompute segment times. -/
def removeGatePair (segNet : SegNet) (p : Nat) (s : AppState) : AppState × List SegReq :=
  let s := { s with
    timeGates := s.timeGates.filter (fun g => g.pairId ≠ p)
    pairCheckpoints := mapDelete s.pairCheckpoints p
    pairNames := mapDelete s.pairNames p }
  recalcAllSegmentTimes segNet s

/-- The two flat gates `loadSelectedCourse` pushes for one course gate:
confirmed, not editing, ids `"{pairId}_S"` / `"{pairId}_E"`. -/
def courseGateFlat (g : CourseGate) : List Gate :=
  [ { id := toString g.pairId ++ "_S", pairId := g.pairId, name := g.name
      type := GType.start, lat := g.start.lat, lon := g.start.lon
      confirmed := true, editing := false },
    { id := toString g.pairId ++ "_E", pairId := g.pairId, name := g.name
      type := GType.end_, lat := g.end_.lat, lon := g.end_.lon
      confirmed := true, editing := false } ]

/-- The flat gate list rebuilt from a course payload. -/
def courseFlatGates (gs : List CourseGate) : List Gate :=
  gs.flatMap courseGateFlat

/-- The checkpoint mapping rebuilt from a course payload (set only when the
payload carries a checkpoint array). -/
def courseCps (gs : List CourseGate) : CpMap :=
  gs.foldl (fun m g =>
    match g.checkpoints with
    | some cps => mapSet m g.pairId (cps.map (fun cp => { lat := cp.lat, lon := cp.lon }))
    | none => m) []

/-- The custom-name mapping rebuilt from a course payload. -/
def courseNames (gs : List CourseGate) : NameMap :=
  gs.foldl (fun m g => mapSet m g.pairId g.name) []

/-- `loadSelectedCourse`: with a selected course, fetch it, replace the gate
collection, checkpoint and name mappings and the buffer distance from the
payload, then refresh the leaderboard and recompute segment times; on fetch
failure the state is left unchanged. -/
def loadSelectedCourse (courseNet : CourseNet) (lbNet : LbNet) (segNet : SegNet)
    (s : AppState) : AppState × List SegReq :=
  if idFalsy s.selectedCourseId then (s, [])
  else
    match courseNet (s.selectedCourseId.getD 0) with
    | Except.error _ => (s, [])
    | Except.ok c =>
      let s := { s with
        selectedCourse := some c
        isCreatingCourse := false
        timeGates := courseFlatGates c.gates
        pairCheckpoints := courseCps c.gates
        pairNames := courseNames c.gates
        bufferMeters := c.buffer_m }
      let s := fetchLeaderboard lbNet s
      recalcAllSegmentTimes segNet s

/-- `toggleTrack(trackId)`: remove the first occurrence from the selection if
present (`indexOf`/`splice`), otherwise append (`push`). -/
def toggleTrack (trackId : String) (s : AppState) : AppState :=
  if s.selectedTrackIds.contains trackId then
    { s with selectedTrackIds := s.selectedTrackIds.erase trackId }
  else
    { s with selectedTrackIds := s.selectedTrackIds ++ [trackId] }

/-- The editing-exclusivity invariant: all gates in editing mode belong to a
single pair. -/
def editExclusive (gs : List Gate) : Prop :=
  ∀ g1 ∈ gs, ∀ g2 ∈ gs, g1.editing = true → g2.editing = true → g1.pairId = g2.pairId

instance (gs : List Gate) : Decidable (editExclusive gs) := by
  unfold editExclusive
  infer_instance

/-- The flag coherence every group entry keeps: `confirmed` is the conjunction
of the stored gates' `confirmed` flags (false when a side is missing), and
`editing` the disjunction of their `editing` flags. -/
def flagsOk (e : GatePair) : Prop :=
  e.confirmed = (((e.start.map Gate.confirmed).getD false)
      && ((e.end_.map Gate.confirmed).getD false))
  ∧ e.editing = (((e.start.map Gate.editing).getD false)
      || ((e.end_.map Gate.editing).getD false))

/-- The (unique) group entry for a `pairId` in an aggregator group list. -/
def findEntry (groups : List GatePair) (p : Nat) : Option GatePair :=
  groups.find? (fun e => e.pairId = p)

/-- One step of the group evolution for a fixed `pairId`, as seen through
`findEntry`. -/
def pairStep (names : NameMap) (cps : CpMap) (p : Nat) (o : Option GatePair) (g : Gate) :
    Option GatePair :=
  if g.pairId = p then
    some (updateEntry names cps g (o.getD (newEntry names cps g)))
  else o

/-- The last gate of the given pair and type in a gate list, seeded by `o`. -/
def lastOf (gates : List Gate) (p : Nat) (t : GType) (o : Option Gate) : Option Gate :=
  gates.foldl (fun o g => if g.pairId = p ∧ g.type = t then some g else o) o

/-! ### Concrete fixtures used by scenario theorems and witnesses -/

/-- A fresh app state, mirroring the initial `createState()` values of the
fields modelled here. -/
def emptyState : AppState :=
  { timeGates := [], pairCheckpoints := [], pairNames := [], tracks := []
    selectedTrackIds := [], selectedCourseId := none, selectedCourse := none
    isCreatingCourse := false, bufferMeters := 10, leaderboard := [] }

/-- A segment-times oracle that always succeeds with an absent body. -/
def okSegNet : SegNet := fun _ => Except.ok none

/-- A leaderboard oracle that always succeeds with an absent body. -/
def okLbNet : LbNet := fun _ => Except.ok none

/-- The start gate of the spec's Aggregator scenario
(`{pairId:1, type:start, lat:1, lon:1, confirmed:true}`). -/
def c8start : Gate :=
  { id := "", pairId := 1, name := "", type := GType.start
    lat := 1, lon := 1, confirmed := true, editing := false }

/-- The end gate of the spec's Aggregator scenario
(`{pairId:1, type:end, lat:2, lon:2, confirmed:true}`). -/
def c8end : Gate :=
  { id := "", pairId := 1, name := "", type := GType.end_
    lat := 2, lon := 2, confirmed := true, editing := false }

/-- A state whose single pair 1 is unconfirmed and in editing mode. -/
def c4state : AppState :=
  { emptyState with timeGates :=
      [ { id := "1_S", pairId := 1, name := "Gate Pair 1", type := GType.start
          lat := 0, lon := 0, confirmed := false, editing := true },
        { id := "1_E", pairId := 1, name := "Gate Pair 1", type := GType.end_
          lat := 0, lon := 0, confirmed := false, editing := true } ] }

/-- A state whose selection list holds a duplicated track id. -/
def c10state : AppState :=
  { emptyState with selectedTrackIds := ["a", "a"] }

/-- A state with pair 1 unconfirmed-and-editing and pair 2 idle. -/
def w5state : AppState :=
  { emptyState with timeGates :=
      [ { id := "1_S", pairId := 1, name := "", type := GType.start
          lat := 0, lon := 0, confirmed := false, editing := true },
        { id := "1_E", pairId := 1, name := "", type := GType.end_
          lat := 0, lon := 0, confirmed := false, editing := true },
        { id := "2_S", pairId := 2, name := "", type := GType.start
          lat := 0, lon := 0, confirmed := false, editing := false },
        { id := "2_E", pairId := 2, name := "", type := GType.end_
          lat := 0, lon := 0, confirmed := false, editing := false } ] }

/-- A one-point track whose request the failing oracle rejects. -/
def wTrack1 : Track :=
  { id := "t1", name := "T1", points := [{ lat := 0, lon := 0, ele := none, time := none }]
    color := "red", segmentTimes := [] }

/-- A one-point track whose request the failing oracle accepts. -/
def wTrack2 : Track :=
  { id := "t2", name := "T2", points := [{ lat := 3, lon := 3, ele := none, time := none }]
    color := "blue", segmentTimes := [] }

/-- A state with one confirmed pair and the two tracks above loaded. -/
def w2state : AppState :=
  { emptyState with timeGates := [c8start, c8end], tracks := [wTrack1, wTrack2] }

/-- An oracle failing exactly on requests carrying `wTrack1`'s points. -/
def w2net : SegNet := fun r =>
  if r.points = [{ lat := 0, lon := 0, ele := none, time := none }] then
    Except.error "boom"
  else Except.ok (some ["seg1"])

/-- A state with one loaded track and no gates at all. -/
def w3state : AppState :=
  { emptyState with tracks := [wTrack1] }

/-- First gate pair of the loaded-course fixture. -/
def w7cg1 : CourseGate :=
  { pairId := 1, name := "A", start := { lat := 0, lon := 0 }
    end_ := { lat := 1, lon := 1 }, checkpoints := none }

/-- Second gate pair of the loaded-course fixture. -/
def w7cg2 : CourseGate :=
  { pairId := 2, name := "B", start := { lat := 2, lon := 2 }
    end_ := { lat := 3, lon := 3 }, checkpoints := some [{ lat := 5, lon := 5 }] }

/-- A persisted course with exactly two gate pairs. -/
def w7course : Course := { gates := [w7cg1, w7cg2], buffer_m := 15 }

/-- A course oracle always returning the two-pair course. -/
def w7net : CourseNet := fun _ => Except.ok w7course

/-- A prior in-memory state holding three confirmed pairs (4, 5, 6) together
with a checkpoint entry and a custom name, about to load course 7. -/
def w7state : AppState :=
  { emptyState with
    selectedCourseId := some 7
    pairNames := [(4, "Old4")]
    pairCheckpoints := [(4, [{ lat := 9, lon := 9 }])]
    timeGates :=
      [ { id := "4_S", pairId := 4, name := "Old4", type := GType.start
          lat := 0, lon := 0, confirmed := true, editing := false },
        { id := "4_E", pairId := 4, name := "Old4", type := GType.end_
          lat := 0, lon := 0, confirmed := true, editing := false },
        { id := "5_S", pairId := 5, name := "Old5", type := GType.start
          lat := 0, lon := 0, confirmed := true, editing := false },
        { id := "5_E", pairId := 5, name := "Old5", type := GType.end_
          lat := 0, lon := 0, confirmed := true, editing := false },
        { id := "6_S", pairId := 6, name := "Old6", type := GType.start
          lat := 0, lon := 0, confirmed := true, editing := false },
        { id := "6_E", pairId := 6, name := "Old6", type := GType.end_
          lat := 0, lon := 0, confirmed := true, editing := false } ] }

/-! ### Structural lemmas about the Aggregator -/

theorem updateEntry_pairId (names : NameMap) (cps : CpMap) (g : Gate) (e : GatePair) :
    (updateEntry names cps g e).pairId = e.pairId := by
  obtain ⟨i, pid, nm, ty, la, lo, co, ed⟩ := g
  cases ty <;> rfl

theorem newEntry_pairId (names : NameMap) (cps : CpMap) (g : Gate) :
    (newEntry names cps g).pairId = g.pairId := rfl

theorem updateEntry_start (names : NameMap) (cps : CpMap) (g : Gate) (e : GatePair) :
    (updateEntry names cps g e).start =
      (if g.type = GType.start then some g else e.start) := by
  obtain ⟨i, pid, nm, ty, la, lo, co, ed⟩ := g
  cases ty <;> rfl

theorem updateEntry_end (names : NameMap) (cps : CpMap) (g : Gate) (e : GatePair) :
    (updateEntry names cps g e).end_ =
      (if g.type = GType.end_ then some g else e.end_) := by
  obtain ⟨i, pid, nm, ty, la, lo, co, ed⟩ := g
  cases ty <;> rfl

theorem newEntry_start (names : NameMap) (cps : CpMap) (g : Gate) :
    (newEntry names cps g).start = none := rfl

theorem newEntry_end (names : NameMap) (cps : CpMap) (g : Gate) :
    (newEntry names cps g).end_ = none := rfl

theorem flagsOk_updateEntry (names : NameMap) (cps : CpMap) (g : Gate) (e : GatePair) :
    flagsOk (updateEntry names cps g e) := by
  obtain ⟨i, pid, nm, ty, la, lo, co, ed⟩ := g
  constructor <;> (cases ty <;> rfl)

theorem findEntry_insertGate (names : NameMap) (cps : CpMap) (acc : List GatePair)
    (g : Gate) (p : Nat) :
    findEntry (insertGate names cps acc g) p =
      if g.pairId = p then
        some (updateEntry names cps g ((findEntry acc p).getD (newEntry names cps g)))
      else findEntry acc p := by
  unfold insertGate findEntry
  by_cases hany : acc.any (fun e => e.pairId = g.pairId)
  · simp only [hany, if_true]
    rw [List.find?_map]
    have hcomp : ((fun e : GatePair => decide (e.pairId = p)) ∘
        (fun e => if e.pairId = g.pairId then updateEntry names cps g e else e))
        = fun e : GatePair => decide (e.pairId = p) := by
      funext e
      by_cases he : e.pairId = g.pairId
      · simp [Function.comp, he, updateEntry_pairId]
      · simp [Function.comp, he]
    rw [hcomp]
    by_cases hp : g.pairId = p
    · rcases List.any_eq_true.mp hany with ⟨e0, he0, hpe0⟩
      have hsome : (acc.find? (fun e => e.pairId = p)).isSome := by
        rw [List.find?_isSome]
        exact ⟨e0, he0, by simpa [hp] using hpe0⟩
      rcases Option.isSome_iff_exists.mp hsome with ⟨efound, hefound⟩
      have hkey : efound.pairId = p := by
        have := List.find?_some hefound
        simpa using this
      rw [hefound]
      simp [hp, hkey, hp ▸ hkey]
    · simp only [hp, if_false]
      cases hfind : acc.find? (fun e => e.pairId = p) with
      | none => rfl
      | some efound =>
        have hkey : efound.pairId = p := by
          have := List.find?_some hfind
          simpa using this
        have : ¬ efound.pairId = g.pairId := by
          rw [hkey]; exact fun h => hp h.symm
        simp [this]
  · rw [if_neg hany, List.find?_append]
    have hnone : acc.find? (fun e => e.pairId = g.pairId) = none := by
      rw [List.find?_eq_none]
      intro x hx
      by_contra hcon
      exact hany (List.any_eq_true.mpr ⟨x, hx, by simpa using hcon⟩)
    have hkeyup : (updateEntry names cps g (newEntry names cps g)).pairId = g.pairId := by
      rw [updateEntry_pairId, newEntry_pairId]
    by_cases hp : g.pairId = p
    · have hnone' : acc.find? (fun e => e.pairId = p) = none := by
        rw [← hp]; exact hnone
      rw [hnone']
      simp [hp, hkeyup, findEntry, hnone']
    · have hne : ¬ (updateEntry names cps g (newEntry names cps g)).pairId = p := by
        rw [hkeyup]; exact hp
      simp [hp, hne]

theorem findEntry_foldl (names : NameMap) (cps : CpMap) (gates : List Gate)
    (acc : List GatePair) (p : Nat) :
    findEntry (gates.foldl (insertGate names cps) acc) p
      = gates.foldl (pairStep names cps p) (findEntry acc p) := by
  induction gates generalizing acc with
  | nil => rfl
  | cons g gs ih =>
    rw [List.foldl_cons, List.foldl_cons, ih, findEntry_insertGate]
    rfl

theorem pairStep_start (names : NameMap) (cps : CpMap) (p : Nat) (o : Option GatePair)
    (g : Gate) :
    (pairStep names cps p o g).bind GatePair.start =
      if g.pairId = p ∧ g.type = GType.start then some g else o.bind GatePair.start := by
  unfold pairStep
  by_cases h : g.pairId = p
  · rw [if_pos h]
    by_cases ht : g.type = GType.start
    · rw [if_pos ⟨h, ht⟩]
      show (updateEntry names cps g (o.getD (newEntry names cps g))).start = some g
      rw [updateEntry_start, if_pos ht]
    · rw [if_neg (fun hc => ht hc.2)]
      show (updateEntry names cps g (o.getD (newEntry names cps g))).start
        = o.bind GatePair.start
      rw [updateEntry_start, if_neg ht]
      cases o with
      | none => rfl
      | some e => rfl
  · rw [if_neg h, if_neg (fun hc => h hc.1)]

theorem pairStep_end (names : NameMap) (cps : CpMap) (p : Nat) (o : Option GatePair)
    (g : Gate) :
    (pairStep names cps p o g).bind GatePair.end_ =
      if g.pairId = p ∧ g.type = GType.end_ then some g else o.bind GatePair.end_ := by
  unfold pairStep
  by_cases h : g.pairId = p
  · rw [if_pos h]
    by_cases ht : g.type = GType.end_
    · rw [if_pos ⟨h, ht⟩]
      show (updateEntry names cps g (o.getD (newEntry names cps g))).end_ = some g
      rw [updateEntry_end, if_pos ht]
    · rw [if_neg (fun hc => ht hc.2)]
      show (updateEntry names cps g (o.getD (newEntry names cps g))).end_
        = o.bind GatePair.end_
      rw [updateEntry_end, if_neg ht]
      cases o with
      | none => rfl
      | some e => rfl
  · rw [if_neg h, if_neg (fun hc => h hc.1)]

theorem foldl_pairStep_start (names : NameMap) (cps : CpMap) (p : Nat)
    (gates : List Gate) (o : Option GatePair) :
    (gates.foldl (pairStep names cps p) o).bind GatePair.start
      = lastOf gates p GType.start (o.bind GatePair.start) := by
  induction gates generalizing o with
  | nil => rfl
  | cons g gs ih =>
    rw [List.foldl_cons, ih, pairStep_start]
    rfl

theorem foldl_pairStep_end (names : NameMap) (cps : CpMap) (p : Nat)
    (gates : List Gate) (o : Option GatePair) :
    (gates.foldl (pairStep names cps p) o).bind GatePair.end_
      = lastOf gates p GType.end_ (o.bind GatePair.end_) := by
  induction gates generalizing o with
  | nil => rfl
  | cons g gs ih =>
    rw [List.foldl_cons, ih, pairStep_end]
    rfl

theorem lastOf_isSome (gates : List Gate) (p : Nat) (t : GType) (o : Option Gate) :
    (lastOf gates p t o).isSome = true ↔
      (o.isSome = true ∨ ∃ g ∈ gates, g.pairId = p ∧ g.type = t) := by
  induction gates generalizing o with
  | nil => simp [lastOf]
  | cons g gs ih =>
    rw [lastOf, List.foldl_cons]
    rw [show List.foldl (fun o g => if g.pairId = p ∧ g.type = t then some g else o)
        (if g.pairId = p ∧ g.type = t then some g else o) gs
        = lastOf gs p t (if g.pairId = p ∧ g.type = t then some g else o) from rfl]
    rw [ih]
    by_cases hc : g.pairId = p ∧ g.type = t
    · constructor
      · intro _
        exact Or.inr ⟨g, by simp, hc⟩
      · intro _
        simp [hc]
    · rw [if_neg hc]
      constructor
      · rintro (h | ⟨g', hg', hp⟩)
        · exact Or.inl h
        · exact Or.inr ⟨g', by simp [hg'], hp⟩
      · rintro (h | ⟨g', hg', hp⟩)
        · exact Or.inl h
        · rcases List.mem_cons.mp hg' with rfl | hmem
          · exact absurd hp hc
          · exact Or.inr ⟨g', hmem, hp⟩

theorem mem_insertGate (names : NameMap) (cps : CpMap) (acc : List GatePair)
    (g : Gate) (e : GatePair) (he : e ∈ insertGate names cps acc g) :
    e ∈ acc ∨ (∃ e0 ∈ acc, e = updateEntry names cps g e0)
      ∨ e = updateEntry names cps g (newEntry names cps g) := by
  unfold insertGate at he
  by_cases hany : acc.any (fun e => e.pairId = g.pairId)
  · rw [if_pos hany] at he
    rcases List.mem_map.mp he with ⟨e0, he0, heq⟩
    by_cases hk : e0.pairId = g.pairId
    · rw [if_pos hk] at heq
      exact Or.inr (Or.inl ⟨e0, he0, heq.symm⟩)
    · rw [if_neg hk] at heq
      exact Or.inl (heq ▸ he0)
  · rw [if_neg hany] at he
    rcases List.mem_append.mp he with h | h
    · exact Or.inl h
    · rcases List.mem_singleton.mp h with rfl
      exact Or.inr (Or.inr rfl)

theorem flagsOk_foldl (names : NameMap) (cps : CpMap) (gates : List Gate)
    (acc : List GatePair) (hacc : ∀ e ∈ acc, flagsOk e) :
    ∀ e ∈ gates.foldl (insertGate names cps) acc, flagsOk e := by
  induction gates generalizing acc with
  | nil => exact hacc
  | cons g gs ih =>
    rw [List.foldl_cons]
    refine ih (insertGate names cps acc g) ?_
    intro e he
    rcases mem_insertGate names cps acc g e he with h | ⟨e0, _, rfl⟩ | rfl
    · exact hacc e h
    · exact flagsOk_updateEntry names cps g e0
    · exact flagsOk_updateEntry names cps g (newEntry names cps g)

/-- Every output pair of the Aggregator has coherent flags. -/
theorem gatePairs_flagsOk (gates : List Gate) (names : NameMap) (cps : CpMap) :
    ∀ e ∈ gatePairs gates names cps, flagsOk e := by
  intro e he
  have : e ∈ gatePairsRaw gates names cps := List.mem_of_mem_filter he
  exact flagsOk_foldl names cps gates [] (by intro x hx; cases hx) e this

theorem pairId_pred_foldl (Q : Nat → Prop) (names : NameMap) (cps : CpMap)
    (gates : List Gate) (acc : List GatePair)
    (hacc : ∀ e ∈ acc, Q e.pairId) (hg : ∀ g ∈ gates, Q g.pairId) :
    ∀ e ∈ gates.foldl (insertGate names cps) acc, Q e.pairId := by
  induction gates generalizing acc with
  | nil => exact hacc
  | cons g gs ih =>
    rw [List.foldl_cons]
    refine ih (insertGate names cps acc g) ?_ (fun g' hg' => hg g' (List.mem_cons_of_mem g hg'))
    intro e he
    rcases mem_insertGate names cps acc g e he with h | ⟨e0, he0, rfl⟩ | rfl
    · exact hacc e h
    · rw [updateEntry_pairId]
      exact hacc e0 he0
    · rw [updateEntry_pairId, newEntry_pairId]
      exact hg g (List.mem_cons_self g gs)

/-- Every group in the raw aggregator output carries a `pairId` of some input
gate. -/
theorem gatePairsRaw_pairId_mem (gates : List Gate) (names : NameMap) (cps : CpMap) :
    ∀ e ∈ gatePairsRaw gates names cps, ∃ g ∈ gates, g.pairId = e.pairId := by
  intro e he
  have := pairId_pred_foldl (fun p => ∃ g ∈ gates, g.pairId = p) names cps gates []
    (by intro x hx; cases hx) (fun g hg => ⟨g, hg, rfl⟩) e he
  exact this

theorem insertGate_keys_nodup (names : NameMap) (cps : CpMap) (acc : List GatePair)
    (g : Gate) (h : (acc.map GatePair.pairId).Nodup) :
    ((insertGate names cps acc g).map GatePair.pairId).Nodup := by
  unfold insertGate
  by_cases hany : acc.any (fun e => e.pairId = g.pairId)
  · rw [if_pos hany, List.map_map]
    have : (GatePair.pairId ∘ fun e =>
        if e.pairId = g.pairId then updateEntry names cps g e else e) = GatePair.pairId := by
      funext e
      by_cases hk : e.pairId = g.pairId
      · simp [Function.comp, hk, updateEntry_pairId]
      · simp [Function.comp, hk]
    rw [this]
    exact h
  · rw [if_neg hany, List.map_append, List.nodup_append]
    refine ⟨h, List.nodup_singleton _, ?_⟩
    intro p hp hq
    rcases List.mem_map.mp hp with ⟨e, he, rfl⟩
    simp only [List.map_cons, List.map_nil, List.mem_singleton] at hq
    rw [updateEntry_pairId, newEntry_pairId] at hq
    exact hany (List.any_eq_true.mpr ⟨e, he, by simpa using hq⟩)

theorem gatePairsRaw_keys_nodup (gates : List Gate) (names : NameMap) (cps : CpMap) :
    ((gatePairsRaw gates names cps).map GatePair.pairId).Nodup := by
  unfold gatePairsRaw
  have : ∀ (gs : List Gate) (acc : List GatePair),
      (acc.map GatePair.pairId).Nodup →
      ((gs.foldl (insertGate names cps) acc).map GatePair.pairId).Nodup := by
    intro gs
    induction gs with
    | nil => intro acc h; exact h
    | cons g gs' ih =>
      intro acc h
      rw [List.foldl_cons]
      exact ih _ (insertGate_keys_nodup names cps acc g h)
  exact this gates [] (by simp)

theorem mem_key_iff_findEntry (l : List GatePair)
    (hnd : (l.map GatePair.pairId).Nodup) (p : Nat) (e : GatePair) :
    (e ∈ l ∧ e.pairId = p) ↔ findEntry l p = some e := by
  constructor
  · rintro ⟨hmem, hkey⟩
    induction l with
    | nil => cases hmem
    | cons a l' ih =>
      rcases List.mem_cons.mp hmem with rfl | hmem'
      · unfold findEntry
        rw [List.find?_cons_of_pos _ (by simpa using hkey)]
      · by_cases ha : a.pairId = p
        · exfalso
          have hpk : e.pairId ∈ l'.map GatePair.pairId := List.mem_map_of_mem _ hmem'
          rw [List.map_cons, List.nodup_cons] at hnd
          apply hnd.1
          rw [ha, ← hkey]
          exact hpk
        · unfold findEntry
          rw [List.find?_cons_of_neg _ (by simpa using ha)]
          have hnd' : (l'.map GatePair.pairId).Nodup := by
            rw [List.map_cons, List.nodup_cons] at hnd
            exact hnd.2
          exact ih hnd' hmem'
  · intro h
    refine ⟨List.mem_of_find?_eq_some h, ?_⟩
    have := List.find?_some h
    simpa using this

/-- Core characterization for the Aggregator: a pair with a given `pairId` is
output iff the flat collection holds both a start and an end gate with that
`pairId`. -/
theorem pairExists_iff (gates : List Gate) (names : NameMap) (cps : CpMap) (p : Nat) :
    (∃ pr ∈ gatePairs gates names cps, pr.pairId = p) ↔
      ((∃ g ∈ gates, g.pairId = p ∧ g.type = GType.start)
        ∧ (∃ g ∈ gates, g.pairId = p ∧ g.type = GType.end_)) := by
  have hnd := gatePairsRaw_keys_nodup gates names cps
  have hfind : findEntry (gatePairsRaw gates names cps) p
      = List.foldl (pairStep names cps p) none gates := by
    have := findEntry_foldl names cps gates [] p
    simpa [gatePairsRaw, findEntry] using this
  have hstart : ((findEntry (gatePairsRaw gates names cps) p).bind GatePair.start).isSome = true
      ↔ ∃ g ∈ gates, g.pairId = p ∧ g.type = GType.start := by
    rw [hfind, foldl_pairStep_start]
    simpa using lastOf_isSome gates p GType.start none
  have hend : ((findEntry (gatePairsRaw gates names cps) p).bind GatePair.end_).isSome = true
      ↔ ∃ g ∈ gates, g.pairId = p ∧ g.type = GType.end_ := by
    rw [hfind, foldl_pairStep_end]
    simpa using lastOf_isSome gates p GType.end_ none
  constructor
  · rintro ⟨pr, hpr, hkey⟩
    have hpr' : pr ∈ (gatePairsRaw gates names cps).filter
        (fun q => q.start.isSome && q.end_.isSome) := hpr
    have hraw : pr ∈ gatePairsRaw gates names cps := (List.mem_filter.mp hpr').1
    have hflt : (pr.start.isSome && pr.end_.isSome) = true := (List.mem_filter.mp hpr').2
    have hfound : findEntry (gatePairsRaw gates names cps) p = some pr :=
      (mem_key_iff_findEntry _ hnd p pr).mp ⟨hraw, hkey⟩
    rw [Bool.and_eq_true] at hflt
    constructor
    · rw [← hstart, hfound]
      simpa using hflt.1
    · rw [← hend, hfound]
      simpa using hflt.2
  · rintro ⟨hs, he⟩
    have h1 := hstart.mpr hs
    have h2 := hend.mpr he
    cases hf : findEntry (gatePairsRaw gates names cps) p with
    | none => rw [hf] at h1; simp at h1
    | some pr =>
      rw [hf] at h1 h2
      have hmem := (mem_key_iff_findEntry _ hnd p pr).mpr hf
      refine ⟨pr, ?_, hmem.2⟩
      unfold gatePairs
      refine List.mem_filter.mpr ⟨hmem.1, ?_⟩
      simp only [Bool.and_eq_true]
      constructor
      · simpa using h1
      · simpa using h2

/-! ### Frame lemmas about the stateful operations -/

theorem recalc_frame (net : SegNet) (s : AppState) :
    (recalcAllSegmentTimes net s).1.timeGates = s.timeGates
    ∧ (recalcAllSegmentTimes net s).1.pairNames = s.pairNames
    ∧ (recalcAllSegmentTimes net s).1.pairCheckpoints = s.pairCheckpoints
    ∧ (recalcAllSegmentTimes net s).1.selectedCourse = s.selectedCourse
    ∧ (recalcAllSegmentTimes net s).1.isCreatingCourse = s.isCreatingCourse
    ∧ (recalcAllSegmentTimes net s).1.bufferMeters = s.bufferMeters
    ∧ (recalcAllSegmentTimes net s).1.selectedTrackIds = s.selectedTrackIds
    ∧ (recalcAllSegmentTimes net s).1.leaderboard = s.leaderboard := by
  unfold recalcAllSegmentTimes
  by_cases h1 : s.tracks.isEmpty
  · simp [h1]
  · by_cases h2 : (gatePairsToApiPayload s).isEmpty <;> simp [h1, h2]

theorem fetchLeaderboard_frame (lbNet : LbNet) (s : AppState) :
    (fetchLeaderboard lbNet s).timeGates = s.timeGates
    ∧ (fetchLeaderboard lbNet s).pairNames = s.pairNames
    ∧ (fetchLeaderboard lbNet s).pairCheckpoints = s.pairCheckpoints
    ∧ (fetchLeaderboard lbNet s).selectedCourse = s.selectedCourse
    ∧ (fetchLeaderboard lbNet s).isCreatingCourse = s.isCreatingCourse
    ∧ (fetchLeaderboard lbNet s).bufferMeters = s.bufferMeters
    ∧ (fetchLeaderboard lbNet s).tracks = s.tracks := by
  unfold fetchLeaderboard
  by_cases h : idFalsy s.selectedCourseId
  · simp [h]
  · cases hn : lbNet (s.selectedCourseId.getD 0) <;> simp [h, hn]

theorem mapGet_mapDelete {α : Type} (m : List (Nat × α)) (k : Nat) :
    mapGet (mapDelete m k) k = none := by
  unfold mapGet mapDelete
  have hfind : (m.filter (fun kv => kv.1 ≠ k)).find? (fun kv => kv.1 = k) = none := by
    rw [List.find?_eq_none]
    intro kv hkv
    have := (List.mem_filter.mp hkv).2
    simpa using this
  rw [hfind]
  rfl

/-! ### Claim theorems -/

/-- C1: for every flat gate collection, checkpoint mapping and custom-name
mapping, the Aggregator outputs a pair with a given `pairId` iff the
collection holds both a start-type and an end-type gate with that `pairId`,
and each output pair's `confirmed` flag is true exactly when both its start
and end gates are confirmed. -/
theorem claim1_aggregator_pairing (gates : List Gate) (names : NameMap) (cps : CpMap) :
    (∀ p : Nat, (∃ pr ∈ gatePairs gates names cps, pr.pairId = p) ↔
        ((∃ g ∈ gates, g.pairId = p ∧ g.type = GType.start)
          ∧ (∃ g ∈ gates, g.pairId = p ∧ g.type = GType.end_)))
    ∧ (∀ pr ∈ gatePairs gates names cps, ∀ sg eg,
        pr.start = some sg → pr.end_ = some eg →
        (pr.confirmed = true ↔ (sg.confirmed = true ∧ eg.confirmed = true))) := by
  constructor
  · intro p
    exact pairExists_iff gates names cps p
  · intro pr hpr sg eg hs he
    have hf := (gatePairs_flagsOk gates names cps pr hpr).1
    rw [hs, he] at hf
    simp at hf
    rw [hf]
    exact iff_of_eq (Bool.and_eq_true sg.confirmed eg.confirmed)

/-- Witness for C1 on the concrete two-gate collection of the spec
scenario: the Aggregator does output a pair with `pairId` 1, and that pair's
`confirmed` flag agrees with the conjunction of its gates' flags. -/
theorem claim1_witness :
    ∃ pr ∈ gatePairs [c8start, c8end] [] [], pr.pairId = 1 :=
  ((claim1_aggregator_pairing [c8start, c8end] [] []).1 1).mpr
    ⟨⟨c8start, by simp, by simp [c8start]⟩, ⟨c8end, by simp, by simp [c8end]⟩⟩

/-- C8: the Aggregator scenario of the spec — the flat gates
`[{pairId:1,type:start,lat:1,lon:1,confirmed:true},
{pairId:1,type:end,lat:2,lon:2,confirmed:true}]` with empty checkpoint and
name mappings yield exactly one pair, confirmed, named `"Gate Pair 1"`; the
companion conjuncts exercise the naming tie-break: a custom name wins over
everything, and a gate-carried name wins over the synthesized default. -/
theorem claim8_naming_scenario :
    ((gatePairs [c8start, c8end] [] []).map (fun pr => (pr.pairId, pr.name, pr.confirmed))
        = [(1, "Gate Pair 1", true)])
    ∧ ((gatePairs [c8start, c8end] [(1, "Custom")] []).map GatePair.name = ["Custom"])
    ∧ ((gatePairs [{ c8start with name := "Carried" }, { c8end with name := "Carried" }]
          [] []).map GatePair.name = ["Carried"])
    ∧ ((gatePairs [{ c8start with name := "Carried" }, { c8end with name := "Carried" }]
          [(1, "Custom")] []).map GatePair.name = ["Custom"]) := by
  refine ⟨?_, ?_, ?_, ?_⟩ <;> rfl

/-- C9: `startEditing` never changes any gate's `confirmed` flag — the
branch `if (!g.confirmed) g.confirmed = false` only rewrites `false` to
`false` — and modifies nothing but the `editing` flags. -/
theorem claim9_startEditing_confirmed_frame (p : Nat) (s : AppState) :
    ((startEditing p s).timeGates.map Gate.confirmed = s.timeGates.map Gate.confirmed)
    ∧ (startEditing p s).timeGates
        = s.timeGates.map (fun g => { g with editing := decide (g.pairId = p) }) := by
  have hfun : ∀ g : Gate,
      ({ g with
          editing := decide (g.pairId = p),
          confirmed := if g.pairId ≠ p ∧ g.confirmed = false then false else g.confirmed } : Gate)
        = { g with editing := decide (g.pairId = p) } := by
    intro g
    obtain ⟨i, pid, nm, ty, la, lo, co, ed⟩ := g
    cases co <;> simp
  have h2 : (startEditing p s).timeGates
      = s.timeGates.map (fun g => { g with editing := decide (g.pairId = p) }) := by
    simp only [startEditing]
    exact List.map_congr_left (fun g _ => hfun g)
  refine ⟨?_, h2⟩
  rw [h2, List.map_map]
  rfl

/-- C5: `startEditing(2)` in a state whose pair-1 gates are unconfirmed and
editing puts pair 2's gates in editing mode, leaves pair 1's gates
non-editing and unconfirmed, and leaves at most one pair in editing mode. -/
theorem claim5_startEditing_two (s : AppState)
    (h1 : ∀ g ∈ s.timeGates, g.pairId = 1 → (g.confirmed = false ∧ g.editing = true)) :
    (∀ g ∈ (startEditing 2 s).timeGates, g.pairId = 2 → g.editing = true)
    ∧ (∀ g ∈ (startEditing 2 s).timeGates, g.pairId = 1 →
        (g.editing = false ∧ g.confirmed = false))
    ∧ editExclusive (startEditing 2 s).timeGates := by
  refine ⟨?_, ?_, ?_⟩
  · intro g hg hp2
    simp only [startEditing, List.mem_map] at hg
    rcases hg with ⟨g0, hg0, rfl⟩
    have hp2' : g0.pairId = 2 := hp2
    show decide (g0.pairId = 2) = true
    simp [hp2']
  · intro g hg hp1
    simp only [startEditing, List.mem_map] at hg
    rcases hg with ⟨g0, hg0, rfl⟩
    have hp1' : g0.pairId = 1 := hp1
    have hconf := (h1 g0 hg0 hp1').1
    constructor
    · show decide (g0.pairId = 2) = false
      simp [hp1']
    · show (if g0.pairId ≠ 2 ∧ g0.confirmed = false then false else g0.confirmed) = false
      rw [if_pos ⟨by simp [hp1'], hconf⟩]
  · intro g1 hg1 g2 hg2 he1 he2
    simp only [startEditing, List.mem_map] at hg1 hg2
    rcases hg1 with ⟨a, ha, rfl⟩
    rcases hg2 with ⟨b, hb, rfl⟩
    have e1 : decide (a.pairId = 2) = true := he1
    have e2 : decide (b.pairId = 2) = true := he2
    have ha2 : a.pairId = 2 := of_decide_eq_true e1
    have hb2 : b.pairId = 2 := of_decide_eq_true e2
    show a.pairId = b.pairId
    rw [ha2, hb2]

/-- Witness for C5 on a concrete state with pair 1 unconfirmed-and-editing
and an idle pair 2. -/
theorem claim5_witness :
    (∀ g ∈ (startEditing 2 w5state).timeGates, g.pairId = 2 → g.editing = true)
    ∧ (∀ g ∈ (startEditing 2 w5state).timeGates, g.pairId = 1 →
        (g.editing = false ∧ g.confirmed = false))
    ∧ editExclusive (startEditing 2 w5state).timeGates :=
  claim5_startEditing_two w5state (by decide)

/-- C6: after `removeGatePair(pairId)` no gate, checkpoint entry or custom
name for that `pairId` remains, and no pair with that id appears in the
Aggregator output. -/
theorem claim6_removeGatePair (net : SegNet) (p : Nat) (s : AppState) :
    (∀ g ∈ (removeGatePair net p s).1.timeGates, g.pairId ≠ p)
    ∧ mapGet (removeGatePair net p s).1.pairCheckpoints p = none
    ∧ mapGet (removeGatePair net p s).1.pairNames p = none
    ∧ (∀ pr ∈ gatePairs (removeGatePair net p s).1.timeGates
        (removeGatePair net p s).1.pairNames (removeGatePair net p s).1.pairCheckpoints,
        pr.pairId ≠ p) := by
  have e1 : (removeGatePair net p s).1.timeGates
      = s.timeGates.filter (fun g => g.pairId ≠ p) := (recalc_frame net _).1
  have e2 : (removeGatePair net p s).1.pairNames
      = mapDelete s.pairNames p := (recalc_frame net _).2.1
  have e3 : (removeGatePair net p s).1.pairCheckpoints
      = mapDelete s.pairCheckpoints p := (recalc_frame net _).2.2.1
  refine ⟨?_, ?_, ?_, ?_⟩
  · intro g hg
    rw [e1] at hg
    have := (List.mem_filter.mp hg).2
    simpa using this
  · rw [e3]
    exact mapGet_mapDelete _ _
  · rw [e2]
    exact mapGet_mapDelete _ _
  · intro pr hpr
    rw [e1, e2, e3] at hpr
    intro hkey
    have hraw : pr ∈ gatePairsRaw (s.timeGates.filter (fun g => g.pairId ≠ p))
        (mapDelete s.pairNames p) (mapDelete s.pairCheckpoints p) :=
      (List.mem_filter.mp hpr).1
    rcases gatePairsRaw_pairId_mem _ _ _ pr hraw with ⟨g, hg, hgid⟩
    have hne := (List.mem_filter.mp hg).2
    simp at hne
    exact hne (hgid.trans hkey)

/-- Witness for C6: removing pair 1 from the concrete editing state leaves no
trace of it. -/
theorem claim6_witness :
    (∀ g ∈ (removeGatePair okSegNet 1 c4state).1.timeGates, g.pairId ≠ 1)
    ∧ mapGet (removeGatePair okSegNet 1 c4state).1.pairCheckpoints 1 = none
    ∧ mapGet (removeGatePair okSegNet 1 c4state).1.pairNames 1 = none
    ∧ (∀ pr ∈ gatePairs (removeGatePair okSegNet 1 c4state).1.timeGates
        (removeGatePair okSegNet 1 c4state).1.pairNames
        (removeGatePair okSegNet 1 c4state).1.pairCheckpoints,
        pr.pairId ≠ 1) :=
  claim6_removeGatePair okSegNet 1 c4state

/-- C3: with zero confirmed pairs (empty API payload) `recalcAllSegmentTimes`
leaves every loaded track with empty `segmentTimes` and issues no request. -/
theorem claim3_recalc_zero_confirmed (net : SegNet) (s : AppState)
    (h : gatePairsToApiPayload s = []) :
    (∀ t ∈ (recalcAllSegmentTimes net s).1.tracks, t.segmentTimes = [])
    ∧ (recalcAllSegmentTimes net s).2 = [] := by
  unfold recalcAllSegmentTimes
  by_cases h1 : s.tracks.isEmpty
  · rw [if_pos h1]
    refine ⟨?_, rfl⟩
    intro t ht
    have ht' : t ∈ s.tracks := ht
    rw [List.isEmpty_iff.mp h1] at ht'
    cases ht'
  · rw [if_neg h1]
    refine ⟨?_, ?_⟩ <;> simp [h]

/-- Witness for C3 on a state with one loaded track and no gates. -/
theorem claim3_witness :
    gatePairsToApiPayload w3state = []
    ∧ ((∀ t ∈ (recalcAllSegmentTimes okSegNet w3state).1.tracks, t.segmentTimes = [])
      ∧ (recalcAllSegmentTimes okSegNet w3state).2 = []) :=
  ⟨rfl, claim3_recalc_zero_confirmed okSegNet w3state rfl⟩

/-- C2: with at least one confirmed pair and two loaded one-point tracks,
a failing request for the first track and a succeeding one for the second
leave the first track with empty `segmentTimes` and the second with the
returned segments; both requests are issued. -/
theorem claim2_failure_isolation (net : SegNet) (s : AppState) (t1 t2 : Track)
    (msg : String) (segs : Option (List Segment))
    (htr : s.tracks = [t1, t2])
    (hp1 : t1.points ≠ []) (hp2 : t2.points ≠ [])
    (hg : gatePairsToApiPayload s ≠ [])
    (h1 : net (mkSegReq t1 (gatePairsToApiPayload s) (jsNum s.bufferMeters 10))
        = Except.error msg)
    (h2 : net (mkSegReq t2 (gatePairsToApiPayload s) (jsNum s.bufferMeters 10))
        = Except.ok segs) :
    (recalcAllSegmentTimes net s).1.tracks
        = [{ t1 with segmentTimes := [] }, { t2 with segmentTimes := segs.getD [] }]
    ∧ (recalcAllSegmentTimes net s).2
        = [mkSegReq t1 (gatePairsToApiPayload s) (jsNum s.bufferMeters 10),
           mkSegReq t2 (gatePairsToApiPayload s) (jsNum s.bufferMeters 10)] := by
  have hp1' : t1.points.isEmpty = false := by simpa using hp1
  have hp2' : t2.points.isEmpty = false := by simpa using hp2
  unfold recalcAllSegmentTimes
  rw [htr]
  rw [if_neg (by simp)]
  rw [if_neg (by simpa using hg)]
  constructor
  · simp [recalcTrack, hp1', hp2', h1, h2]
  · simp [recalcTrack, hp1', hp2', h1, h2]

/-- Witness for C2 on the concrete two-track state: the oracle rejects
`wTrack1`'s request and accepts `wTrack2`'s. -/
theorem claim2_witness :
    (recalcAllSegmentTimes w2net w2state).1.tracks
        = [{ wTrack1 with segmentTimes := [] }, { wTrack2 with segmentTimes := ["seg1"] }]
    ∧ (recalcAllSegmentTimes w2net w2state).2
        = [mkSegReq wTrack1 (gatePairsToApiPayload w2state) (jsNum w2state.bufferMeters 10),
           mkSegReq wTrack2 (gatePairsToApiPayload w2state) (jsNum w2state.bufferMeters 10)] :=
  claim2_failure_isolation w2net w2state wTrack1 wTrack2 "boom" (some ["seg1"])
    rfl (by decide) (by decide) (by decide) rfl rfl

/-- The selection list after a `toggleTrack` call. -/
theorem toggleTrack_sel (tid : String) (s : AppState) :
    (toggleTrack tid s).selectedTrackIds =
      if s.selectedTrackIds.contains tid then s.selectedTrackIds.erase tid
      else s.selectedTrackIds ++ [tid] := by
  unfold toggleTrack
  by_cases hc : s.selectedTrackIds.contains tid = true
  · rw [if_pos hc, if_pos hc]
  · rw [if_neg hc, if_neg hc]

/-- `toggleTrack` never touches the tracks collection. -/
theorem toggleTrack_tracks (tid : String) (s : AppState) :
    (toggleTrack tid s).tracks = s.tracks := by
  unfold toggleTrack
  split <;> rfl

/-- C10 counterexample: with the id `"a"` selected twice, toggling `"a"`
twice removes both occurrences, so the selected-track set is not restored. -/
theorem claim10_counterexample :
    "a" ∈ c10state.selectedTrackIds
    ∧ "a" ∉ (toggleTrack "a" (toggleTrack "a" c10state)).selectedTrackIds := by
  constructor
  · decide
  · decide

/-- C10 (amended): for a track id occurring at most once in the selection
list, toggling it twice restores the selected-track set, and neither call
changes the tracks collection. -/
theorem claim10_toggleTrack_involution (s : AppState) (tid : String)
    (h : s.selectedTrackIds.count tid ≤ 1) :
    (∀ x, x ∈ (toggleTrack tid (toggleTrack tid s)).selectedTrackIds
        ↔ x ∈ s.selectedTrackIds)
    ∧ (toggleTrack tid s).tracks = s.tracks
    ∧ (toggleTrack tid (toggleTrack tid s)).tracks = s.tracks := by
  refine ⟨?_, toggleTrack_tracks tid s,
    (toggleTrack_tracks tid _).trans (toggleTrack_tracks tid s)⟩
  intro x
  by_cases hmem : tid ∈ s.selectedTrackIds
  · have hcont : s.selectedTrackIds.contains tid = true := by
      simp [List.contains, hmem]
    have hcount : s.selectedTrackIds.count tid = 1 :=
      Nat.le_antisymm h (List.one_le_count_iff.mpr hmem)
    have hnm : tid ∉ s.selectedTrackIds.erase tid := by
      intro hc
      have h1 := List.one_le_count_iff.mpr hc
      rw [List.count_erase_self, hcount] at h1
      omega
    have hcont2 : (s.selectedTrackIds.erase tid).contains tid = false := by
      simp [List.contains, hnm]
    have hstep : (toggleTrack tid (toggleTrack tid s)).selectedTrackIds
        = (s.selectedTrackIds.erase tid) ++ [tid] := by
      rw [toggleTrack_sel, toggleTrack_sel]
      simp [hmem, hnm]
    rw [hstep, List.mem_append, List.mem_singleton]
    by_cases hx : x = tid
    · subst hx
      simp [hmem]
    · simp only [hx, or_false]
      exact List.mem_erase_of_ne hx
  · have hcont : s.selectedTrackIds.contains tid = false := by
      simp [List.contains, hmem]
    have hcont2 : (s.selectedTrackIds ++ [tid]).contains tid = true := by
      simp [List.contains]
    have hstep : (toggleTrack tid (toggleTrack tid s)).selectedTrackIds
        = s.selectedTrackIds := by
      rw [toggleTrack_sel, toggleTrack_sel]
      simp [hmem]
      rw [List.erase_append_right _ hmem, List.erase_cons_head, List.append_nil]
    rw [hstep]

/-- Witness for the amended C10 at a concrete state: `"b"` is selected once,
and toggling it twice restores the selection as a set. -/
theorem claim10_witness :
    (∀ x, x ∈ (toggleTrack "b" (toggleTrack "b"
        { emptyState with selectedTrackIds := ["b", "c"] })).selectedTrackIds
      ↔ x ∈ ({ emptyState with selectedTrackIds := ["b", "c"] } : AppState).selectedTrackIds)
    ∧ (toggleTrack "b" { emptyState with selectedTrackIds := ["b", "c"] }).tracks
        = ({ emptyState with selectedTrackIds := ["b", "c"] } : AppState).tracks
    ∧ (toggleTrack "b" (toggleTrack "b"
        { emptyState with selectedTrackIds := ["b", "c"] })).tracks
        = ({ emptyState with selectedTrackIds := ["b", "c"] } : AppState).tracks :=
  claim10_toggleTrack_involution { emptyState with selectedTrackIds := ["b", "c"] } "b"
    (by decide)

/-- Every flat gate rebuilt from a course payload is confirmed and not in
editing mode. -/
theorem courseFlatGates_flags (gs : List CourseGate) :
    ∀ g ∈ courseFlatGates gs, g.confirmed = true ∧ g.editing = false := by
  intro g hg
  rcases List.mem_flatMap.mp hg with ⟨cg, hcg, hmem⟩
  rcases List.mem_cons.mp hmem with rfl | hmem'
  · exact ⟨rfl, rfl⟩
  · rcases List.mem_singleton.mp hmem' with rfl
    exact ⟨rfl, rfl⟩

/-- The name of the `saveAndConfirmGate` update as written in the source:
the pair's current display name, or the synthesized default. -/
theorem saveAndConfirmGate_timeGates (segNet : SegNet) (lbNet : LbNet) (p : Nat)
    (s : AppState) :
    (saveAndConfirmGate segNet lbNet p s).1.timeGates
      = s.timeGates.map (fun g => if g.pairId ≠ p then g
          else { g with
            name := jsOptStr (((gatePairs s.timeGates s.pairNames s.pairCheckpoints).find?
              (fun q => q.pairId = p)).map GatePair.name) ("Gate Pair " ++ toString p),
            confirmed := true, editing := false }) :=
  ((fetchLeaderboard_frame lbNet _).1).trans ((recalc_frame segNet _).1)

/-- C4 counterexample: `addGatePair` does not clear other pairs' editing
flags, so invoking it while pair 1 is in editing mode yields two editing
pairs, violating the claimed invariant. -/
theorem claim4_counterexample :
    editExclusive c4state.timeGates
    ∧ ¬ editExclusive (addGatePair (0, 0) 0 c4state).timeGates := by
  constructor
  · decide
  · decide

/-- C4 (amended): `startEditing`, `saveAndConfirmGate`, `removeGatePair`,
`loadSelectedCourse` and `startNewCourse` preserve the at-most-one-editing-
pair invariant; `addGatePair` preserves it provided no gate is currently in
editing mode. -/
theorem claim4_edit_exclusive_preserved (s : AppState) (h : editExclusive s.timeGates) :
    (∀ p, editExclusive (startEditing p s).timeGates)
    ∧ (∀ segNet lbNet p, editExclusive (saveAndConfirmGate segNet lbNet p s).1.timeGates)
    ∧ (∀ segNet p, editExclusive (removeGatePair segNet p s).1.timeGates)
    ∧ (∀ courseNet lbNet segNet,
        editExclusive (loadSelectedCourse courseNet lbNet segNet s).1.timeGates)
    ∧ editExclusive (startNewCourse s).timeGates
    ∧ ((∀ g ∈ s.timeGates, g.editing = false) →
        ∀ center now, editExclusive (addGatePair center now s).timeGates) := by
  refine ⟨?_, ?_, ?_, ?_, ?_, ?_⟩
  · intro p g1 hg1 g2 hg2 he1 he2
    simp only [startEditing, List.mem_map] at hg1 hg2
    rcases hg1 with ⟨a, ha, rfl⟩
    rcases hg2 with ⟨b, hb, rfl⟩
    have ea : decide (a.pairId = p) = true := he1
    have eb : decide (b.pairId = p) = true := he2
    show a.pairId = b.pairId
    rw [of_decide_eq_true ea, of_decide_eq_true eb]
  · intro segNet lbNet p g1 hg1 g2 hg2 he1 he2
    rw [saveAndConfirmGate_timeGates] at hg1 hg2
    rcases List.mem_map.mp hg1 with ⟨a, ha, rfl⟩
    rcases List.mem_map.mp hg2 with ⟨b, hb, rfl⟩
    by_cases hap : a.pairId ≠ p
    · rw [if_pos hap] at he1 ⊢
      by_cases hbp : b.pairId ≠ p
      · rw [if_pos hbp] at he2 ⊢
        exact h a ha b hb he1 he2
      · rw [if_neg hbp] at he2
        cases he2
    · rw [if_neg hap] at he1
      cases he1
  · intro segNet p g1 hg1 g2 hg2 he1 he2
    have e : (removeGatePair segNet p s).1.timeGates
        = s.timeGates.filter (fun g => g.pairId ≠ p) := (recalc_frame segNet _).1
    rw [e] at hg1 hg2
    exact h g1 (List.mem_of_mem_filter hg1) g2 (List.mem_of_mem_filter hg2) he1 he2
  · intro courseNet lbNet segNet
    by_cases hf : idFalsy s.selectedCourseId = true
    · have e : (loadSelectedCourse courseNet lbNet segNet s).1.timeGates = s.timeGates := by
        unfold loadSelectedCourse
        rw [if_pos hf]
      rw [e]
      exact h
    · cases hc : courseNet (s.selectedCourseId.getD 0) with
      | error msg =>
        have e : (loadSelectedCourse courseNet lbNet segNet s).1.timeGates
            = s.timeGates := by
          unfold loadSelectedCourse
          rw [if_neg hf, hc]
        rw [e]
        exact h
      | ok c =>
        have e : (loadSelectedCourse courseNet lbNet segNet s).1.timeGates
            = courseFlatGates c.gates := by
          unfold loadSelectedCourse
          rw [if_neg hf, hc]
          exact ((recalc_frame segNet _).1).trans ((fetchLeaderboard_frame lbNet _).1)
        rw [e]
        intro g1 hg1 g2 hg2 he1 he2
        have hfl := (courseFlatGates_flags c.gates g1 hg1).2
        rw [he1] at hfl
        cases hfl
  · intro g1 hg1 g2 hg2 he1 he2
    have hg1' : g1 ∈ ([] : List Gate) := hg1
    cases hg1'
  · intro hnone center now
    have key : ∀ gx, gx ∈ (addGatePair center now s).timeGates →
        gx.editing = true → gx.pairId = nextPairId s := by
      intro gx hgx hex
      rcases List.mem_append.mp hgx with h1 | h1
      · rw [hnone gx h1] at hex
        cases hex
      · rcases List.mem_cons.mp h1 with rfl | h1'
        · rfl
        · rcases List.mem_singleton.mp h1' with rfl
          rfl
    intro g1 hg1 g2 hg2 he1 he2
    rw [key g1 hg1 he1, key g2 hg2 he2]

/-- Witness for the amended C4 at the concrete one-editing-pair state. -/
theorem claim4_witness :
    (∀ p, editExclusive (startEditing p c4state).timeGates)
    ∧ (∀ segNet lbNet p,
        editExclusive (saveAndConfirmGate segNet lbNet p c4state).1.timeGates)
    ∧ (∀ segNet p, editExclusive (removeGatePair segNet p c4state).1.timeGates)
    ∧ (∀ courseNet lbNet segNet,
        editExclusive (loadSelectedCourse courseNet lbNet segNet c4state).1.timeGates)
    ∧ editExclusive (startNewCourse c4state).timeGates
    ∧ ((∀ g ∈ c4state.timeGates, g.editing = false) →
        ∀ center now, editExclusive (addGatePair center now c4state).timeGates) :=
  claim4_edit_exclusive_preserved c4state (by decide)

/-- With distinct `pairId`s, the Aggregator output of the flat gates rebuilt
from a two-pair course payload has exactly two pairs. -/
theorem gatePairs_course_two (names : NameMap) (cps : CpMap) (cg1 cg2 : CourseGate)
    (hne : cg1.pairId ≠ cg2.pairId) :
    (gatePairs (courseFlatGates [cg1, cg2]) names cps).length = 2 := by
  have h21 : cg2.pairId ≠ cg1.pairId := Ne.symm hne
  simp [gatePairs, gatePairsRaw, courseFlatGates, courseGateFlat, insertGate,
    updateEntry, newEntry, hne, h21]

/-- C7: loading a course replaces the flat gate collection, checkpoint
mapping and custom-name mapping entirely with the ones rebuilt from the
fetched payload — for a two-pair payload over any prior state exactly two
pairs exist afterwards, every gate confirmed and not editing. -/
theorem claim7_loadSelectedCourse (courseNet : CourseNet) (lbNet : LbNet) (segNet : SegNet)
    (s : AppState) (cid : Nat) (c : Course) (cg1 cg2 : CourseGate)
    (hsel : s.selectedCourseId = some cid) (hcid : cid ≠ 0)
    (hnet : courseNet cid = Except.ok c)
    (hgates : c.gates = [cg1, cg2]) (hne : cg1.pairId ≠ cg2.pairId) :
    (loadSelectedCourse courseNet lbNet segNet s).1.timeGates = courseFlatGates c.gates
    ∧ (loadSelectedCourse courseNet lbNet segNet s).1.pairCheckpoints = courseCps c.gates
    ∧ (loadSelectedCourse courseNet lbNet segNet s).1.pairNames = courseNames c.gates
    ∧ (∀ g ∈ (loadSelectedCourse courseNet lbNet segNet s).1.timeGates,
        g.confirmed = true ∧ g.editing = false)
    ∧ (gatePairs (loadSelectedCourse courseNet lbNet segNet s).1.timeGates
        (loadSelectedCourse courseNet lbNet segNet s).1.pairNames
        (loadSelectedCourse courseNet lbNet segNet s).1.pairCheckpoints).length = 2 := by
  have hf : ¬ (idFalsy s.selectedCourseId = true) := by
    rw [hsel]
    simp [idFalsy, hcid]
  have hget : s.selectedCourseId.getD 0 = cid := by
    rw [hsel]
    rfl
  have e1 : (loadSelectedCourse courseNet lbNet segNet s).1.timeGates
      = courseFlatGates c.gates := by
    unfold loadSelectedCourse
    rw [if_neg hf, hget, hnet]
    exact ((recalc_frame segNet _).1).trans ((fetchLeaderboard_frame lbNet _).1)
  have e2 : (loadSelectedCourse courseNet lbNet segNet s).1.pairCheckpoints
      = courseCps c.gates := by
    unfold loadSelectedCourse
    rw [if_neg hf, hget, hnet]
    exact ((recalc_frame segNet _).2.2.1).trans ((fetchLeaderboard_frame lbNet _).2.2.1)
  have e3 : (loadSelectedCourse courseNet lbNet segNet s).1.pairNames
      = courseNames c.gates := by
    unfold loadSelectedCourse
    rw [if_neg hf, hget, hnet]
    exact ((recalc_frame segNet _).2.1).trans ((fetchLeaderboard_frame lbNet _).2.1)
  refine ⟨e1, e2, e3, ?_, ?_⟩
  · intro g hg
    rw [e1] at hg
    exact courseFlatGates_flags c.gates g hg
  · rw [e1, e2, e3, hgates]
    exact gatePairs_course_two (courseNames [cg1, cg2]) (courseCps [cg1, cg2]) cg1 cg2 hne

/-- Witness for C7: loading the concrete two-pair course over the concrete
three-pair prior state. -/
theorem claim7_witness :
    (loadSelectedCourse w7net okLbNet okSegNet w7state).1.timeGates
        = courseFlatGates w7course.gates
    ∧ (loadSelectedCourse w7net okLbNet okSegNet w7state).1.pairCheckpoints
        = courseCps w7course.gates
    ∧ (loadSelectedCourse w7net okLbNet okSegNet w7state).1.pairNames
        = courseNames w7course.gates
    ∧ (∀ g ∈ (loadSelectedCourse w7net okLbNet okSegNet w7state).1.timeGates,
        g.confirmed = true ∧ g.editing = false)
    ∧ (gatePairs (loadSelectedCourse w7net okLbNet okSegNet w7state).1.timeGates
        (loadSelectedCourse w7net okLbNet okSegNet w7state).1.pairNames
        (loadSelectedCourse w7net okLbNet okSegNet w7state).1.pairCheckpoints).length = 2 :=
  claim7_loadSelectedCourse w7net okLbNet okSegNet w7state 7 w7course w7cg1 w7cg2
    rfl (by decide) rfl rfl (by decide)

end Trees
